import Mathlib

/-!
Shallow embedding of the Lesik cache agent (src/index.js): path resolution
and the containment guard, a filesystem model, the four cache file
operations, base64 encoding and decoding as used for file payloads, the
request dispatcher, and the connection-manager state machine.
-/

namespace LesikAgent

/-!
### Paths

Node `path.join(root, p)` concatenates the two paths and normalizes `.`
and `..` segments.  Absolute paths are represented as segment lists;
`renderPath` gives the string representation that the code's
`String.startsWith` containment check operates on.
-/

abbrev PathSegs := List String

/-- One step of Node path normalization: empty and `.` segments are
dropped, `..` pops the last segment (and is dropped at the root, since the
joined path is absolute), and ordinary segments are appended. -/
def normStep (acc : List String) (seg : String) : List String :=
  if seg = "" ∨ seg = "." then acc
  else if seg = ".." then acc.dropLast
  else acc ++ [seg]

/-- Split a character list at every occurrence of `sep` (the semantics of
`String.splitOn` with a one-character separator). -/
def splitOnChar (sep : Char) : List Char → List (List Char)
  | [] => [[]]
  | c :: rest =>
      if c = sep then [] :: splitOnChar sep rest
      else
        match splitOnChar sep rest with
        | [] => [[c]]
        | g :: gs => (c :: g) :: gs

/-- Split a path string on `/`. -/
def splitSlash (s : String) : List String :=
  (splitOnChar ('/') s.data).map (fun l => String.mk l)

/-- `path.join(renderPath root, p)` in segment form: split `p` on `/` and
normalize the concatenation. -/
def joinSegs (root : PathSegs) (p : String) : PathSegs :=
  (root ++ splitSlash p).foldl normStep []

/-- The string representation of an absolute path. -/
def renderPath (segs : PathSegs) : String :=
  "/" ++ String.intercalate ("/") segs

/-- JavaScript `s.startsWith(pre)`: `pre` is a prefix of the character
sequence of `s`. -/
def strStarts (s pre : String) : Bool :=
  decide (pre.data <+: s.data)

/-- The guard used by `listFiles`, `readFile` and `writeFile`:
`targetPath.startsWith(resolvedPath)` on the string representations. -/
def pathOk (root : PathSegs) (p : String) : Bool :=
  strStarts (renderPath (joinSegs root p)) (renderPath root)

/-- Semantic path containment: `root` is an ancestor-or-self of `q`
segment-by-segment (the check the specification asks for). -/
def segContained (root q : PathSegs) : Bool :=
  decide (root <+: q)

/-!
### Base64

`Buffer.from(data, 'base64')` (Node) decodes leniently: characters outside
the base64 alphabet, `=` included, are skipped rather than rejected.
`buffer.toString('base64')` produces standard padded base64.
-/

def b64Alphabet : List Char :=
  ['A', 'B', 'C', 'D', 'E', 'F', 'G', 'H', 'I', 'J', 'K', 'L', 'M',
   'N', 'O', 'P', 'Q', 'R', 'S', 'T', 'U', 'V', 'W', 'X', 'Y', 'Z',
   'a', 'b', 'c', 'd', 'e', 'f', 'g', 'h', 'i', 'j', 'k', 'l', 'm',
   'n', 'o', 'p', 'q', 'r', 's', 't', 'u', 'v', 'w', 'x', 'y', 'z',
   '0', '1', '2', '3', '4', '5', '6', '7', '8', '9', '+', '/']

def b64Char (n : Nat) : Char := b64Alphabet.getD n ('=')

def b64Val (c : Char) : Nat := b64Alphabet.indexOf c

def isB64Char (c : Char) : Bool := b64Alphabet.contains c

/-- Standard base64 encoding of a byte list, three bytes at a time, with
`=` padding. -/
def b64EncodeChars : List Nat → List Char
  | [] => []
  | [a] => [b64Char (a / 4), b64Char (a % 4 * 16), '=', '=']
  | [a, b] => [b64Char (a / 4), b64Char (a % 4 * 16 + b / 16), b64Char (b % 16 * 4), '=']
  | a :: b :: c :: rest =>
      b64Char (a / 4) :: b64Char (a % 4 * 16 + b / 16) :: b64Char (b % 16 * 4 + c / 64) ::
        b64Char (c % 64) :: b64EncodeChars rest

def b64Encode (bytes : List Nat) : String := String.mk (b64EncodeChars bytes)

/-- Reassemble bytes from a list of sextet values, four at a time; a
trailing group of three yields two bytes, of two yields one byte, and a
lone trailing sextet is dropped. -/
def b64SextetsToBytes : List Nat → List Nat
  | a :: b :: c :: d :: rest =>
      (a * 4 + b / 16) :: (b % 16 * 16 + c / 4) :: (c % 4 * 64 + d) :: b64SextetsToBytes rest
  | [a, b, c] => [a * 4 + b / 16, b % 16 * 16 + c / 4]
  | [a, b] => [a * 4 + b / 16]
  | _ => []

/-- The decode that claim C10's wording describes: every character
outside the base64 alphabet, `=` included, is skipped and decoding
continues.  Node instead terminates at the first `=`; compare
`b64DecodeLenient`. -/
def b64DecodeSkipAll (s : String) : List Nat :=
  b64SextetsToBytes ((s.data.filter isB64Char).map b64Val)

/-- Node's lenient base64 decoding (`Buffer.from(data, 'base64')`):
characters outside the base64 alphabet are skipped, but decoding stops at
the first `=` (`base64-inl.h`: on `=` the decoder returns, stopping the
decode). -/
def b64DecodeLenient (s : String) : List Nat :=
  b64SextetsToBytes (((s.data.takeWhile fun c => c ≠ ('=')).filter isB64Char).map b64Val)

/-!
### Filesystem model

A filesystem is a finite collection of plain files (absolute path and byte
contents) and directories.  The operations below record every filesystem
access they perform in a log, so that "performs no filesystem access" is a
statement about the model and not only about mutation.
-/

structure FS where
  files : List (PathSegs × List Nat)
  dirs : List PathSegs
deriving Repr, DecidableEq

def FS.lookupFile (fs : FS) (p : PathSegs) : Option (List Nat) :=
  (fs.files.find? (fun e => e.fst = p)).map Prod.snd

def FS.isFile (fs : FS) (p : PathSegs) : Bool := (fs.lookupFile p).isSome

def FS.isDir (fs : FS) (p : PathSegs) : Bool := decide (p ∈ fs.dirs)

/-- `fs.existsSync`. -/
def FS.existsAt (fs : FS) (p : PathSegs) : Bool := fs.isFile p || fs.isDir p

/-- `p` is a direct child of `parent`. -/
def isChildOf (parent p : PathSegs) : Bool :=
  decide (p.length = parent.length + 1 ∧ parent <+: p)

def lastName (p : PathSegs) : String := (p.getLast?).getD ("")

/-- `fs.readdirSync(p, ...)` with file types: names of the direct
children of `p`, each paired with its is-directory flag. -/
def FS.readdirEnts (fs : FS) (p : PathSegs) : List (String × Bool) :=
  (fs.files.filterMap fun e => if isChildOf p e.fst then some (lastName e.fst, false) else none)
    ++ (fs.dirs.filterMap fun d => if isChildOf p d then some (lastName d, true) else none)

/-- `fs.readdirSync(p)`: the plain name listing. -/
def FS.readdirNames (fs : FS) (p : PathSegs) : List String :=
  (fs.readdirEnts p).map Prod.fst

def FS.addDir (fs : FS) (p : PathSegs) : FS :=
  if p ∈ fs.dirs then fs else { fs with dirs := fs.dirs ++ [p] }

/-- Helper for recursive `mkdir`: create each listed path in order,
stopping with an error (and keeping the directories already created) when
an existing plain file is in the way. -/
def mkdirGo (fs : FS) : List PathSegs → Option String × FS
  | [] => (none, fs)
  | q :: rest =>
      if fs.isFile q then (some ("ENOTDIR: not a directory, mkdir"), fs)
      else mkdirGo (fs.addDir q) rest

/-- `fs.mkdirSync(d, recursive)`: create the missing directories along
`d`, shortest prefix first. -/
def FS.mkdirRecursive (fs : FS) (d : PathSegs) : Option String × FS :=
  mkdirGo fs d.inits

/-- `fs.writeFileSync` content update: replace or insert the entry at `p`. -/
def updateFile (l : List (PathSegs × List Nat)) (p : PathSegs) (b : List Nat) :
    List (PathSegs × List Nat) :=
  (p, b) :: l.filter fun e => e.fst ≠ p

/-- Well-formed filesystem: no duplicate paths, and no path is both a
file and a directory. -/
def FS.wf (fs : FS) : Prop :=
  (fs.files.map Prod.fst).Nodup ∧ fs.dirs.Nodup ∧
    ∀ p ∈ fs.files.map Prod.fst, p ∉ fs.dirs

instance (fs : FS) : Decidable fs.wf := by
  unfold FS.wf; infer_instance

/-- An already-normalized path, as `path.resolve` produces for the cache
root: no empty, `.` or `..` segments. -/
def normalSegs (segs : PathSegs) : Prop :=
  ∀ s ∈ segs, s ≠ "" ∧ s ≠ "." ∧ s ≠ ".."

instance (segs : PathSegs) : Decidable (normalSegs segs) := by
  unfold normalSegs; infer_instance

instance {ε α : Type} [DecidableEq ε] [DecidableEq α] : DecidableEq (Except ε α) := fun a b =>
  match a, b with
  | .ok x, .ok y => decidable_of_iff (x = y) (by simp)
  | .error x, .error y => decidable_of_iff (x = y) (by simp)
  | .ok _, .error _ => isFalse (fun h => Except.noConfusion h)
  | .error _, .ok _ => isFalse (fun h => Except.noConfusion h)

/-! ### The four cache file operations -/

inductive FSAccess
  | readdir (p : PathSegs)
  | stat (p : PathSegs)
  | readF (p : PathSegs)
  | writeF (p : PathSegs)
  | mkdir (p : PathSegs)
  | existsQ (p : PathSegs)
deriving Repr, DecidableEq

/-- Outcome of one cache file operation: its result, the filesystem
afterwards, and the filesystem accesses it performed. -/
structure OpOut (α : Type) where
  res : Except String α
  fs : FS
  log : List FSAccess

/-- The `params` object of a request: every field optional, as in JSON.
The `encoding` field is accepted but never used by the operations. -/
structure Params where
  subdir : Option String := none
  filePath : Option String := none
  data : Option String := none
  encoding : Option String := none
deriving Repr, DecidableEq

structure FileEnt where
  name : String
  isDirectory : Bool
  size : Nat
deriving Repr, DecidableEq

structure ReadResult where
  data : String
  size : Nat
deriving Repr, DecidableEq

structure WriteResult where
  written : Nat
deriving Repr, DecidableEq

structure CacheInfo where
  path : String
  fileCount : Nat
  totalSize : Nat
  files : List String
deriving Repr, DecidableEq

def accessDeniedMsg : String := "Access denied: path traversal attempt"

def destructureErrorMsg : String := "Cannot destructure property filePath of undefined"

def typeErrorPathMsg : String := "TypeError: the path argument must be of type string"

def typeErrorDataMsg : String := "TypeError: first argument must be a string or Buffer"

/-- `listFiles(params)`. -/
def listFiles (root : PathSegs) (params : Option Params) (fs : FS) : OpOut (List FileEnt) :=
  let subdir := (params.bind (fun p => p.subdir)).getD ("")
  let target := joinSegs root subdir
  if ¬ pathOk root subdir then ⟨.error accessDeniedMsg, fs, []⟩
  else if ¬ fs.isDir target then
    ⟨.error ("ENOENT: no such file or directory, scandir " ++ renderPath target), fs,
      [.readdir target]⟩
  else
    let ents := fs.readdirEnts target
    ⟨.ok (ents.map fun e =>
        ⟨e.fst, e.snd, if e.snd then 0 else ((fs.lookupFile (target ++ [e.fst])).getD []).length⟩),
      fs,
      .readdir target :: ents.filterMap fun e =>
        if e.snd then none else some (.stat (target ++ [e.fst]))⟩

/-- `readFile(params)`. -/
def readFile (root : PathSegs) (params : Option Params) (fs : FS) : OpOut ReadResult :=
  match params with
  | none => ⟨.error destructureErrorMsg, fs, []⟩
  | some ps =>
    match ps.filePath with
    | none => ⟨.error typeErrorPathMsg, fs, []⟩
    | some fp =>
      let target := joinSegs root fp
      if ¬ pathOk root fp then ⟨.error accessDeniedMsg, fs, []⟩
      else if ¬ fs.existsAt target then
        ⟨.error ("File not found: " ++ fp), fs, [.existsQ target]⟩
      else if fs.isDir target then
        ⟨.error ("EISDIR: illegal operation on a directory, read"), fs,
          [.existsQ target, .readF target]⟩
      else
        let bytes := (fs.lookupFile target).getD []
        ⟨.ok ⟨b64Encode bytes, bytes.length⟩, fs, [.existsQ target, .readF target]⟩

/-- `writeFile(params)`. -/
def writeFile (root : PathSegs) (params : Option Params) (fs : FS) : OpOut WriteResult :=
  match params with
  | none => ⟨.error destructureErrorMsg, fs, []⟩
  | some ps =>
    match ps.filePath with
    | none => ⟨.error typeErrorPathMsg, fs, []⟩
    | some fp =>
      let target := joinSegs root fp
      if ¬ pathOk root fp then ⟨.error accessDeniedMsg, fs, []⟩
      else
        match fs.mkdirRecursive target.dropLast with
        | (some e, fs1) => ⟨.error e, fs1, [.mkdir target.dropLast]⟩
        | (none, fs1) =>
          match ps.data with
          | none => ⟨.error typeErrorDataMsg, fs1, [.mkdir target.dropLast]⟩
          | some d =>
            if fs1.isDir target then
              ⟨.error ("EISDIR: illegal operation on a directory, open"), fs1,
                [.mkdir target.dropLast, .writeF target]⟩
            else
              let buffer := b64DecodeLenient d
              ⟨.ok ⟨buffer.length⟩,
                { fs1 with files := updateFile fs1.files target buffer },
                [.mkdir target.dropLast, .writeF target]⟩

/-- `getCacheInfo()`.  The cache root is validated to exist at startup, so
no error branch is modelled. -/
def getCacheInfo (root : PathSegs) (fs : FS) : OpOut CacheInfo :=
  let names := fs.readdirNames root
  let totalSize :=
    (names.map fun n =>
      if fs.isFile (root ++ [n]) then ((fs.lookupFile (root ++ [n])).getD []).length else 0).sum
  ⟨.ok ⟨renderPath root, names.length, totalSize, names.take 50⟩,
    fs, .readdir root :: names.map fun n => .stat (root ++ [n])⟩

/-! ### Message dispatcher -/

structure Request where
  requestId : String
  action : String
  params : Option Params
deriving Repr, DecidableEq

inductive RespData
  | listing (l : List FileEnt)
  | contents (r : ReadResult)
  | writeAck (w : WriteResult)
  | info (c : CacheInfo)
deriving Repr, DecidableEq

structure Response where
  requestId : String
  success : Bool
  data : Option RespData
  error : Option String
deriving Repr, DecidableEq

/-- The `switch (action)` of `handleRequest`; an unmatched action name
throws `Unknown action`. -/
def runAction (root : PathSegs) (action : String) (params : Option Params) (fs : FS) :
    Except String RespData × FS × List FSAccess :=
  match action with
  | "listFiles" => let o := listFiles root params fs; (o.res.map .listing, o.fs, o.log)
  | "readFile" => let o := readFile root params fs; (o.res.map .contents, o.fs, o.log)
  | "writeFile" => let o := writeFile root params fs; (o.res.map .writeAck, o.fs, o.log)
  | "getCacheInfo" => let o := getCacheInfo root fs; (o.res.map .info, o.fs, o.log)
  | a => (.error ("Unknown action: " ++ a), fs, [])

/-- `handleRequest`: run the action and wrap the outcome in a response
envelope carrying the echoed `requestId`. -/
def handleRequest (root : PathSegs) (req : Request) (fs : FS) :
    Response × FS × List FSAccess :=
  match runAction root req.action req.params fs with
  | (.ok d, fs1, log) => (⟨req.requestId, true, some d, none⟩, fs1, log)
  | (.error e, fs1, log) => (⟨req.requestId, false, none, some e⟩, fs1, log)

/-! ### Connection manager -/

/-- The fixed reconnect delay, in milliseconds. -/
def RECONNECT_DELAY : Nat := 5000

inductive InMsg
  | registered (sessionToken : String)
  | request (req : Request)
  | serverError (message : String)
  | other (t : String)
deriving Repr, DecidableEq

inductive OutMsg
  | register (agentId : String) (cachePath : String) (cacheFiles : List String)
  | response (r : Response)
deriving Repr, DecidableEq

/-- One transport event: socket opened, inbound payload (already run
through `JSON.parse`, which yields `Except.error` on a malformed frame),
socket closed, socket error, or the reconnect timer firing. -/
inductive Event
  | evOpen
  | evMessage (parsed : Except String InMsg)
  | evClose
  | evError (message : String)
  | evTimerFire
deriving Repr

/-- Startup data: resolved cache root, agent identifier, and the
directory listing taken once at startup (used as the register preview). -/
structure Config where
  root : PathSegs
  agentId : String
  cacheFiles0 : List String
deriving Repr, DecidableEq

structure AgentState where
  fs : FS
  wsOpen : Bool
  sessionToken : Option String
  reconnectPending : Bool
  armedTimers : Nat
deriving Repr, DecidableEq

def initState (fs0 : FS) : AgentState :=
  ⟨fs0, false, none, false, 0⟩

/-- `scheduleReconnect()`: guarded by the pending flag.  `armedTimers`
counts the reconnect timers actually armed — the quantity the guard is
meant to bound. -/
def scheduleReconnect (s : AgentState) : AgentState :=
  if s.reconnectPending then s
  else { s with reconnectPending := true, armedTimers := s.armedTimers + 1 }

/-- One step of the agent: the handler the source installs for each
transport event, returning the new state and the messages actually sent
(`send` silently drops when the socket is not open). -/
def step (cfg : Config) (s : AgentState) (e : Event) : AgentState × List OutMsg :=
  match e with
  | .evOpen =>
      let s1 := { s with wsOpen := true }
      (s1, [.register cfg.agentId (renderPath cfg.root) (cfg.cacheFiles0.take 20)])
  | .evMessage (.error _) => (s, [])
  | .evMessage (.ok (.registered tok)) => ({ s with sessionToken := some tok }, [])
  | .evMessage (.ok (.request req)) =>
      let out := handleRequest cfg.root req s.fs
      let s1 := { s with fs := out.snd.fst }
      (s1, if s1.wsOpen then [.response out.fst] else [])
  | .evMessage (.ok (.serverError _)) => (s, [])
  | .evMessage (.ok (.other _)) => (s, [])
  | .evClose => (scheduleReconnect { s with wsOpen := false, sessionToken := none }, [])
  | .evError _ => (s, [])
  | .evTimerFire =>
      if s.reconnectPending then
        ({ s with reconnectPending := false, armedTimers := s.armedTimers - 1, wsOpen := false },
          [])
      else (s, [])

def runEvents (cfg : Config) (s : AgentState) : List Event → AgentState
  | [] => s
  | e :: rest => runEvents cfg (step cfg s e).fst rest

/-- At most one reconnect timer is armed, and the `reconnectTimeout`
guard flag is set exactly when a timer is armed. -/
def timersInv (s : AgentState) : Prop :=
  s.armedTimers ≤ 1 ∧ (s.reconnectPending = true ↔ s.armedTimers = 1)

/-! ### Substring occurrence (for error-message claims) -/

def subOccurs (sub : List Char) : List Char → Bool
  | [] => decide (sub = [])
  | c :: rest => decide (sub <+: (c :: rest)) || subOccurs sub rest

/-- Case-insensitive substring test. -/
def containsCI (sub s : String) : Bool :=
  subOccurs (sub.data.map Char.toLower) (s.data.map Char.toLower)

/-! ### Concrete fixtures used by witnesses and counterexamples -/

/-- Cache root `/cache` holding the 4-byte file `a.txt` and the
subdirectory `b` (the scenario of the specification). -/
def fsScenario : FS :=
  ⟨[(["cache", "a.txt"], [116, 101, 115, 116])], [["cache"], ["cache", "b"]]⟩

/-- Cache root `/a/b`, next to which the sibling `/a/bc` will be created. -/
def fsSibling : FS := ⟨[], [["a", "b"]]⟩

def cfg0 : Config := ⟨["cache"], "agent01", ["a.txt", "b"]⟩

/-!
## Theorems
-/

/-! ### Base64 round trip -/

theorem b64_val_char_fin : ∀ n : Fin 64, b64Val (b64Char n.val) = n.val := by decide

theorem b64_val_char {n : Nat} (h : n < 64) : b64Val (b64Char n) = n :=
  b64_val_char_fin ⟨n, h⟩

theorem isB64Char_b64Char_fin : ∀ n : Fin 64, isB64Char (b64Char n.val) = true := by decide

theorem isB64Char_b64Char {n : Nat} (h : n < 64) : isB64Char (b64Char n) = true :=
  isB64Char_b64Char_fin ⟨n, h⟩

theorem isB64Char_pad : isB64Char ('=') = false := by decide

theorem b64Char_ne_pad_fin : ∀ n : Fin 64, b64Char n.val ≠ ('=') := by decide

theorem b64Char_ne_pad {n : Nat} (h : n < 64) : b64Char n ≠ ('=') :=
  b64Char_ne_pad_fin ⟨n, h⟩

theorem b64DecodeLenient_encode_eq (bytes : List Nat) :
    b64DecodeLenient (b64Encode bytes) =
      b64SextetsToBytes ((((b64EncodeChars bytes).takeWhile fun c => c ≠ ('=')).filter
        isB64Char).map b64Val) := rfl

/-- Decoding inverts encoding on byte lists. -/
theorem b64_decode_encode : ∀ (bytes : List Nat), (∀ b ∈ bytes, b < 256) →
    b64DecodeLenient (b64Encode bytes) = bytes
  | [], _ => rfl
  | [a], h => by
      have ha : a < 256 := h a (by simp)
      have h1 : a / 4 < 64 := by omega
      have h2 : a % 4 * 16 < 64 := by omega
      rw [b64DecodeLenient_encode_eq]
      simp [b64EncodeChars, List.takeWhile_cons, b64Char_ne_pad h1, b64Char_ne_pad h2,
        List.filter_cons, isB64Char_b64Char h1, isB64Char_b64Char h2,
        isB64Char_pad, b64_val_char h1, b64_val_char h2, b64SextetsToBytes]
      omega
  | [a, b], h => by
      have ha : a < 256 := h a (by simp)
      have hb : b < 256 := h b (by simp)
      have h1 : a / 4 < 64 := by omega
      have h2 : a % 4 * 16 + b / 16 < 64 := by omega
      have h3 : b % 16 * 4 < 64 := by omega
      rw [b64DecodeLenient_encode_eq]
      simp [b64EncodeChars, List.takeWhile_cons, b64Char_ne_pad h1, b64Char_ne_pad h2,
        b64Char_ne_pad h3, List.filter_cons, isB64Char_b64Char h1, isB64Char_b64Char h2,
        isB64Char_b64Char h3, isB64Char_pad, b64_val_char h1, b64_val_char h2,
        b64_val_char h3, b64SextetsToBytes]
      constructor
      · omega
      · omega
  | a :: b :: c :: rest, h => by
      have ha : a < 256 := h a (by simp)
      have hb : b < 256 := h b (by simp)
      have hc : c < 256 := h c (by simp)
      have ih := b64_decode_encode rest (fun x hx => h x (by simp [hx]))
      have h1 : a / 4 < 64 := by omega
      have h2 : a % 4 * 16 + b / 16 < 64 := by omega
      have h3 : b % 16 * 4 + c / 64 < 64 := by omega
      have h4 : c % 64 < 64 := by omega
      rw [b64DecodeLenient_encode_eq] at ih ⊢
      rw [show b64EncodeChars (a :: b :: c :: rest) =
            b64Char (a / 4) :: b64Char (a % 4 * 16 + b / 16) ::
              b64Char (b % 16 * 4 + c / 64) :: b64Char (c % 64) :: b64EncodeChars rest
          from rfl]
      simp only [List.takeWhile_cons, decide_eq_true_eq, ne_eq, b64Char_ne_pad h1,
        b64Char_ne_pad h2, b64Char_ne_pad h3, b64Char_ne_pad h4, not_false_eq_true,
        List.filter_cons, isB64Char_b64Char h1, isB64Char_b64Char h2,
        isB64Char_b64Char h3, isB64Char_b64Char h4, if_true, List.map_cons,
        b64_val_char h1, b64_val_char h2, b64_val_char h3, b64_val_char h4] at ih ⊢
      rw [show ∀ s1 s2 s3 s4 tail, b64SextetsToBytes (s1 :: s2 :: s3 :: s4 :: tail) =
            (s1 * 4 + s2 / 16) :: (s2 % 16 * 16 + s3 / 4) :: (s3 % 4 * 64 + s4) ::
              b64SextetsToBytes tail
          from fun _ _ _ _ _ => rfl]
      rw [ih]
      simp only [List.cons.injEq]
      exact ⟨by omega, by omega, by omega, trivial⟩

/-! ### Substring lemmas -/

theorem subOccurs_nil : ∀ l : List Char, subOccurs [] l = true
  | [] => rfl
  | _ :: rest => by simp [subOccurs, subOccurs_nil rest]

theorem subOccurs_append_right (sub : List Char) :
    ∀ l t, subOccurs sub l = true → subOccurs sub (l ++ t) = true
  | [], t, h => by
      have hs : sub = [] := by simpa [subOccurs] using h
      subst hs
      exact subOccurs_nil t
  | c :: rest, t, h => by
      simp only [subOccurs, Bool.or_eq_true, decide_eq_true_eq] at h
      rcases h with h | h
      · have hp : sub <+: (c :: rest) ++ t := h.trans (List.prefix_append _ _)
        simp only [List.cons_append] at hp
        simp [subOccurs, hp]
      · simp [subOccurs, subOccurs_append_right sub rest t h]

/-! ### Path lemmas -/

theorem foldl_normStep_normal : ∀ (segs : PathSegs), normalSegs segs →
    ∀ acc, segs.foldl normStep acc = acc ++ segs
  | [], _, acc => by simp
  | s :: rest, h, acc => by
      have hs := h s (by simp)
      have hr : normalSegs rest := fun x hx => h x (by simp [hx])
      simp only [List.foldl_cons]
      rw [show normStep acc s = acc ++ [s] by simp [normStep, hs.1, hs.2.1, hs.2.2]]
      rw [foldl_normStep_normal rest hr (acc ++ [s])]
      simp

theorem joinSegs_empty (root : PathSegs) (h : normalSegs root) : joinSegs root "" = root := by
  unfold joinSegs
  rw [show splitSlash "" = [""] from rfl]
  rw [List.foldl_append, foldl_normStep_normal root h []]
  simp [normStep]

theorem pathOk_empty (root : PathSegs) (h : normalSegs root) : pathOk root "" = true := by
  simp [pathOk, joinSegs_empty root h, strStarts]

/-! ### Filesystem lemmas -/

theorem find?_key_eq : ∀ {l : List (PathSegs × List Nat)}, (l.map Prod.fst).Nodup →
    ∀ {e : PathSegs × List Nat}, e ∈ l → l.find? (fun x => x.fst = e.fst) = some e := by
  intro l hnd e he
  induction l with
  | nil => cases he
  | cons a t ih =>
      rcases List.mem_cons.mp he with rfl | ht
      · simp [List.find?_cons]
      · have hnd' : (t.map Prod.fst).Nodup := (List.nodup_cons.mp hnd).2
        have hmem : e.fst ∈ t.map Prod.fst := List.mem_map.mpr ⟨e, ht, rfl⟩
        have hne : ¬ a.fst = e.fst := by
          intro hEq
          exact (List.nodup_cons.mp hnd).1 (hEq ▸ hmem)
        simp [List.find?_cons, hne, ih hnd' ht]

theorem lookupFile_of_mem {fs : FS} (hnd : (fs.files.map Prod.fst).Nodup)
    {e : PathSegs × List Nat} (he : e ∈ fs.files) : fs.lookupFile e.fst = some e.snd := by
  unfold FS.lookupFile
  rw [find?_key_eq hnd he]
  rfl

theorem isChildOf_eq {parent q : PathSegs} (h : isChildOf parent q = true) :
    q = parent ++ [lastName q] := by
  simp only [isChildOf, decide_eq_true_eq] at h
  obtain ⟨hlen, hpre⟩ := h
  obtain ⟨t, rfl⟩ := hpre
  have hlt : t.length = 1 := by
    simp only [List.length_append] at hlen
    omega
  obtain ⟨x, rfl⟩ := List.length_eq_one.mp hlt
  simp [lastName]

theorem filterMap_if {α β : Type} (p : α → Bool) (f : α → β) :
    ∀ l : List α, (l.filterMap fun x => if p x then some (f x) else none)
      = (l.filter p).map f
  | [] => rfl
  | a :: t => by
      by_cases h : p a = true
      · simp [List.filterMap_cons, List.filter_cons, h, filterMap_if p f t]
      · simp [List.filterMap_cons, List.filter_cons, h, filterMap_if p f t]

theorem readdirEnts_eq (fs : FS) (p : PathSegs) :
    fs.readdirEnts p =
      ((fs.files.filter fun e => isChildOf p e.fst).map fun e => (lastName e.fst, false))
        ++ ((fs.dirs.filter fun d => isChildOf p d).map fun d => (lastName d, true)) := by
  unfold FS.readdirEnts
  rw [filterMap_if (fun e => isChildOf p e.fst) (fun e => (lastName e.fst, false)) fs.files,
    filterMap_if (fun d => isChildOf p d) (fun d => (lastName d, true)) fs.dirs]

theorem isFile_eq_false_of_mem_dirs {fs : FS} (hwf : fs.wf) {d : PathSegs}
    (hd : d ∈ fs.dirs) : fs.isFile d = false := by
  by_contra h
  have hsome : (fs.files.find? (fun x => x.fst = d)).isSome = true := by
    simpa [FS.isFile, FS.lookupFile] using h
  obtain ⟨e, he⟩ := Option.isSome_iff_exists.mp hsome
  have hmem : e ∈ fs.files := List.mem_of_find?_eq_some he
  have hkey : e.fst = d := by simpa using List.find?_some he
  exact hwf.2.2 d (hkey ▸ List.mem_map.mpr ⟨e, hmem, rfl⟩) hd

theorem readdirNames_length (fs : FS) (p : PathSegs) :
    (fs.readdirNames p).length =
      (fs.files.filter fun e => isChildOf p e.fst).length
        + (fs.dirs.filter fun d => isChildOf p d).length := by
  rw [FS.readdirNames, readdirEnts_eq]
  simp

theorem getCacheInfo_totalSize (root : PathSegs) (fs : FS) (hwf : fs.wf) :
    ((fs.readdirNames root).map fun n =>
        if fs.isFile (root ++ [n]) then ((fs.lookupFile (root ++ [n])).getD []).length else 0).sum
      = ((fs.files.filter fun e => isChildOf root e.fst).map fun e => e.snd.length).sum := by
  rw [FS.readdirNames, readdirEnts_eq, List.map_append, List.map_map, List.map_map,
    List.map_append, List.map_map, List.map_map, List.sum_append]
  have hdirs : ((fs.dirs.filter fun d => isChildOf root d).map
      ((fun n => if fs.isFile (root ++ [n]) then ((fs.lookupFile (root ++ [n])).getD []).length
        else 0) ∘ (Prod.fst ∘ fun d => (lastName d, true)))).sum = 0 := by
    apply List.sum_eq_zero
    intro x hx
    obtain ⟨d, hd, rfl⟩ := List.mem_map.mp hx
    have hmem := List.mem_filter.mp hd
    have hch : isChildOf root d = true := hmem.2
    have hdd : root ++ [lastName d] = d := (isChildOf_eq hch).symm
    simp only [Function.comp]
    rw [hdd, isFile_eq_false_of_mem_dirs hwf hmem.1]
    simp
  rw [hdirs]
  have hfiles : ((fs.files.filter fun e => isChildOf root e.fst).map
      ((fun n => if fs.isFile (root ++ [n]) then ((fs.lookupFile (root ++ [n])).getD []).length
        else 0) ∘ (Prod.fst ∘ fun e => (lastName e.fst, false))))
      = ((fs.files.filter fun e => isChildOf root e.fst).map fun e => e.snd.length) := by
    apply List.map_congr_left
    intro e he
    have hmem := List.mem_filter.mp he
    have hch : isChildOf root e.fst = true := hmem.2
    have hee : root ++ [lastName e.fst] = e.fst := (isChildOf_eq hch).symm
    have hlook : fs.lookupFile e.fst = some e.snd := lookupFile_of_mem hwf.1 hmem.1
    have hisf : fs.isFile e.fst = true := by simp [FS.isFile, hlook]
    simp only [Function.comp]
    rw [hee, hisf, hlook]
    simp
  rw [hfiles]
  simp

theorem listFiles_ok (root : PathSegs) (fs : FS) (hwf : fs.wf) (params : Option Params)
    (hok : pathOk root ((params.bind fun p => p.subdir).getD "") = true)
    (hdir : fs.isDir (joinSegs root ((params.bind fun p => p.subdir).getD "")) = true) :
    (listFiles root params fs).res = .ok
      (((fs.files.filter fun e =>
          isChildOf (joinSegs root ((params.bind fun p => p.subdir).getD "")) e.fst).map
            fun e => ⟨lastName e.fst, false, e.snd.length⟩)
        ++ ((fs.dirs.filter fun d =>
          isChildOf (joinSegs root ((params.bind fun p => p.subdir).getD "")) d).map
            fun d => ⟨lastName d, true, 0⟩)) := by
  unfold listFiles
  simp only [hok, hdir, not_true, if_false, ite_false, Bool.not_eq_true]
  rw [readdirEnts_eq, List.map_append, List.map_map, List.map_map]
  have hA : ((fs.files.filter fun e =>
      isChildOf (joinSegs root ((params.bind fun p => p.subdir).getD "")) e.fst).map
        ((fun e => (⟨e.fst, e.snd,
            if e.snd then 0
            else ((fs.lookupFile
              ((joinSegs root ((params.bind fun p => p.subdir).getD "")) ++ [e.fst])).getD
                []).length⟩ : FileEnt))
          ∘ fun e => (lastName e.fst, false)))
      = ((fs.files.filter fun e =>
          isChildOf (joinSegs root ((params.bind fun p => p.subdir).getD "")) e.fst).map
            fun e => ⟨lastName e.fst, false, e.snd.length⟩) := by
    apply List.map_congr_left
    intro e he
    have hmem := List.mem_filter.mp he
    have hch := hmem.2
    have hee := (isChildOf_eq hch).symm
    have hlook : fs.lookupFile e.fst = some e.snd := lookupFile_of_mem hwf.1 hmem.1
    simp only [Function.comp]
    rw [hee, hlook]
    simp
  rw [hA]
  simp [Function.comp]

/-! ### mkdir and writeFile lemmas -/

theorem addDir_files (fs : FS) (q : PathSegs) : (fs.addDir q).files = fs.files := by
  unfold FS.addDir
  split <;> rfl

theorem addDir_isDir (fs : FS) (q p : PathSegs) :
    (fs.addDir q).isDir p = (fs.isDir p || decide (p = q)) := by
  unfold FS.addDir FS.isDir
  by_cases hq : q ∈ fs.dirs
  · rw [if_pos hq]
    by_cases hpq : p = q
    · subst hpq; simp [hq]
    · simp [hpq]
  · rw [if_neg hq]
    by_cases hpq : p = q
    · subst hpq; simp
    · simp [List.mem_append, hpq]

theorem addDir_isFile (fs : FS) (q p : PathSegs) : (fs.addDir q).isFile p = fs.isFile p := by
  simp [FS.isFile, FS.lookupFile, addDir_files]

theorem mkdirGo_ok : ∀ (l : List PathSegs) (fs : FS), (∀ q ∈ l, fs.isFile q = false) →
    ∃ fs1, mkdirGo fs l = (none, fs1) ∧ fs1.files = fs.files ∧
      ∀ p, fs1.isDir p = (fs.isDir p || decide (p ∈ l))
  | [], fs, _ => ⟨fs, rfl, rfl, by simp⟩
  | q :: rest, fs, h => by
      have hq : fs.isFile q = false := h q (by simp)
      have hrest : ∀ x ∈ rest, (fs.addDir q).isFile x = false := by
        intro x hx
        rw [addDir_isFile]
        exact h x (by simp [hx])
      obtain ⟨fs1, hgo, hfiles, hdirs⟩ := mkdirGo_ok rest (fs.addDir q) hrest
      refine ⟨fs1, ?_, ?_, ?_⟩
      · simp [mkdirGo, hq, hgo]
      · rw [hfiles, addDir_files]
      · intro p
        rw [hdirs p, addDir_isDir]
        by_cases h1 : p = q <;> by_cases h2 : p ∈ rest <;>
          simp [h1, h2, List.mem_cons]

theorem mkdirRecursive_ok (fs : FS) (d : PathSegs)
    (h : ∀ q ∈ d.inits, fs.isFile q = false) :
    ∃ fs1, fs.mkdirRecursive d = (none, fs1) ∧ fs1.files = fs.files ∧
      ∀ p, fs1.isDir p = (fs.isDir p || decide (p ∈ d.inits)) := by
  unfold FS.mkdirRecursive
  exact mkdirGo_ok d.inits fs h

theorem self_not_mem_dropLast_inits {l : PathSegs} (h : l ≠ []) :
    l ∉ l.dropLast.inits := by
  intro hmem
  have hpre := (List.mem_inits _ _).mp hmem
  have hlen := hpre.length_le
  have hdl : l.dropLast.length = l.length - 1 := List.length_dropLast l
  have hpos : 0 < l.length := List.length_pos.mpr h
  omega

theorem lookupFile_updateFile (fs : FS) (p : PathSegs) (b : List Nat) :
    (FS.mk (updateFile fs.files p b) fs.dirs).lookupFile p = some b := by
  simp [FS.lookupFile, updateFile, List.find?_cons]

/-- Behaviour of `writeFile` when the guard passes and the filesystem does
not block the write: parents are created, the decoded bytes are stored,
and the byte count is returned. -/
theorem writeFile_ok (root : PathSegs) (fs : FS) (ps : Params) (fp d : String)
    (hfp : ps.filePath = some fp) (hd : ps.data = some d)
    (hok : pathOk root fp = true)
    (hne : joinSegs root fp ≠ [])
    (hmk : ∀ q ∈ (joinSegs root fp).dropLast.inits, fs.isFile q = false)
    (hndir : fs.isDir (joinSegs root fp) = false) :
    ∃ fs1 : FS, writeFile root (some ps) fs =
        ⟨.ok ⟨(b64DecodeLenient d).length⟩,
          { fs1 with files := updateFile fs1.files (joinSegs root fp) (b64DecodeLenient d) },
          [.mkdir (joinSegs root fp).dropLast, .writeF (joinSegs root fp)]⟩ ∧
      fs1.files = fs.files ∧
      (∀ p, fs1.isDir p = (fs.isDir p || decide (p ∈ (joinSegs root fp).dropLast.inits))) := by
  obtain ⟨fs1, hgo, hfiles, hdirs⟩ := mkdirRecursive_ok fs (joinSegs root fp).dropLast hmk
  refine ⟨fs1, ?_, hfiles, hdirs⟩
  have hnd1 : fs1.isDir (joinSegs root fp) = false := by
    rw [hdirs]
    simp [hndir, self_not_mem_dropLast_inits hne]
  unfold writeFile
  simp only [hfp, hd, hok, not_true, if_false, hgo, hnd1]
  simp

/-! ### readFile lemmas -/

theorem readFile_notfound (root : PathSegs) (fs : FS) (ps : Params) (fp : String)
    (hfp : ps.filePath = some fp) (hok : pathOk root fp = true)
    (hex : fs.existsAt (joinSegs root fp) = false) :
    readFile root (some ps) fs
      = ⟨.error ("File not found: " ++ fp), fs, [.existsQ (joinSegs root fp)]⟩ := by
  unfold readFile
  simp only [hfp, hok, hex, not_true, if_false]
  simp

theorem readFile_eisdir (root : PathSegs) (fs : FS) (ps : Params) (fp : String)
    (hfp : ps.filePath = some fp) (hok : pathOk root fp = true)
    (hex : fs.existsAt (joinSegs root fp) = true)
    (hdir : fs.isDir (joinSegs root fp) = true) :
    (readFile root (some ps) fs).res
      = .error ("EISDIR: illegal operation on a directory, read") := by
  unfold readFile
  simp only [hfp, hok, hex, hdir, not_true, if_false]
  simp

theorem readFile_ok (root : PathSegs) (fs : FS) (ps : Params) (fp : String) (bs : List Nat)
    (hfp : ps.filePath = some fp) (hok : pathOk root fp = true)
    (hlook : fs.lookupFile (joinSegs root fp) = some bs)
    (hndir : fs.isDir (joinSegs root fp) = false) :
    (readFile root (some ps) fs).res = .ok ⟨b64Encode bs, bs.length⟩ := by
  have hisf : fs.isFile (joinSegs root fp) = true := by simp [FS.isFile, hlook]
  have hex : fs.existsAt (joinSegs root fp) = true := by simp [FS.existsAt, hisf]
  unfold readFile
  simp only [hfp, hok, hex, hndir, not_true, if_false, hlook]
  simp

theorem containsCI_notFound (fp : String) :
    containsCI ("not found") ("File not found: " ++ fp) = true := by
  unfold containsCI
  have hdata : ("File not found: " ++ fp).data = ("File not found: ").data ++ fp.data := by
    simp
  rw [hdata, List.map_append]
  apply subOccurs_append_right
  decide

theorem containsCI_eisdir_false :
    containsCI ("not found") ("EISDIR: illegal operation on a directory, read") = false := by
  decide

/-! ### The claims -/

/-- C1: the claim says the containment check treats the root as a path
prefix, so that with root `/a/b` the sibling `/a/bc` is rejected with
`AccessDenied`, and every `..` path resolving outside the root fails.
The code checks a literal string prefix instead: the relative path
`../bc` resolves to the sibling `/a/bc`, passes the guard (`pathOk` is
`true` although the resolved path is not contained in the root), and
`writeFile` proceeds and creates a file outside the root, while
`readFile` proceeds to a `File not found` failure instead of
`AccessDenied`. -/
theorem claimC1_sibling_bypass :
    pathOk ["a", "b"] ("../bc") = true ∧
    joinSegs ["a", "b"] ("../bc") = ["a", "bc"] ∧
    segContained ["a", "b"] ["a", "bc"] = false ∧
    (writeFile ["a", "b"] (some ⟨none, some ("../bc"), some ("QQ=="), none⟩) fsSibling).res
      = .ok ⟨1⟩ ∧
    ((writeFile ["a", "b"] (some ⟨none, some ("../bc"), some ("QQ=="), none⟩)
        fsSibling).fs.lookupFile ["a", "bc"]) = some [65] ∧
    (readFile ["a", "b"] (some ⟨none, some ("../bc"), none, none⟩) fsSibling).res
      = .error ("File not found: ../bc") := by
  refine ⟨by decide, by decide, by decide, by decide, by decide, by decide⟩

/-- C2: whenever the containment guard fails, each of `listFiles`,
`readFile` and `writeFile` returns the `AccessDenied` error, leaves the
filesystem unchanged, and performs no filesystem access at all (empty
access log). -/
theorem claimC2_denied_no_fs_access (root : PathSegs) (fs : FS) :
    (∀ params, pathOk root ((params.bind fun p => p.subdir).getD "") = false →
      listFiles root params fs = ⟨.error accessDeniedMsg, fs, []⟩) ∧
    (∀ ps fp, ps.filePath = some fp → pathOk root fp = false →
      readFile root (some ps) fs = ⟨.error accessDeniedMsg, fs, []⟩) ∧
    (∀ ps fp, ps.filePath = some fp → pathOk root fp = false →
      writeFile root (some ps) fs = ⟨.error accessDeniedMsg, fs, []⟩) := by
  refine ⟨?_, ?_, ?_⟩
  · intro params h
    unfold listFiles
    simp [h]
  · intro ps fp hfp h
    unfold readFile
    simp [hfp, h]
  · intro ps fp hfp h
    unfold writeFile
    simp [hfp, h]

theorem claimC2_witness :
    listFiles ["a", "b"] (some ⟨some ("../../x"), none, none, none⟩) fsSibling
        = ⟨.error accessDeniedMsg, fsSibling, []⟩ ∧
    readFile ["a", "b"] (some ⟨none, some ("../../x"), none, none⟩) fsSibling
        = ⟨.error accessDeniedMsg, fsSibling, []⟩ ∧
    writeFile ["a", "b"] (some ⟨none, some ("../../x"), some ("AA=="), none⟩) fsSibling
        = ⟨.error accessDeniedMsg, fsSibling, []⟩ :=
  ⟨(claimC2_denied_no_fs_access ["a", "b"] fsSibling).1
      (some ⟨some ("../../x"), none, none, none⟩) (by decide),
   (claimC2_denied_no_fs_access ["a", "b"] fsSibling).2.1
      ⟨none, some ("../../x"), none, none⟩ ("../../x") rfl (by decide),
   (claimC2_denied_no_fs_access ["a", "b"] fsSibling).2.2
      ⟨none, some ("../../x"), some ("AA=="), none⟩ ("../../x") rfl (by decide)⟩

/-- C3: for an in-root path and any byte sequence (empty and non-UTF8
included), writing the base64 encoding and then reading the path back
succeeds, the returned data decodes to the original bytes, and the
returned size is the byte count.  The filesystem-side hypotheses are the
normal write preconditions: the target is not an existing directory and
no plain file blocks creation of the parent directories. -/
theorem claimC3_write_read_roundtrip (root : PathSegs) (fs : FS) (fp : String)
    (bytes : List Nat) (hbytes : ∀ b ∈ bytes, b < 256)
    (hok : pathOk root fp = true) (hne : joinSegs root fp ≠ [])
    (hmk : ∀ q ∈ (joinSegs root fp).dropLast.inits, fs.isFile q = false)
    (hndir : fs.isDir (joinSegs root fp) = false) :
    (writeFile root (some ⟨none, some fp, some (b64Encode bytes), none⟩) fs).res
        = .ok ⟨bytes.length⟩ ∧
    (readFile root (some ⟨none, some fp, none, none⟩)
        (writeFile root (some ⟨none, some fp, some (b64Encode bytes), none⟩) fs).fs).res
        = .ok ⟨b64Encode bytes, bytes.length⟩ ∧
    b64DecodeLenient (b64Encode bytes) = bytes := by
  have hrt := b64_decode_encode bytes hbytes
  obtain ⟨fs1, hw, hfiles, hdirs⟩ :=
    writeFile_ok root fs ⟨none, some fp, some (b64Encode bytes), none⟩ fp (b64Encode bytes)
      rfl rfl hok hne hmk hndir
  rw [hrt] at hw
  have hnd1 : fs1.isDir (joinSegs root fp) = false := by
    rw [hdirs]
    simp [hndir, self_not_mem_dropLast_inits hne]
  refine ⟨?_, ?_, hrt⟩
  · rw [hw]
  · rw [hw]
    exact readFile_ok root _ _ fp bytes rfl hok (lookupFile_updateFile fs1 _ _) hnd1

theorem claimC3_witness :
    (writeFile ["cache"]
        (some ⟨none, some ("sub/new.bin"), some (b64Encode [0, 255, 7]), none⟩)
        fsScenario).res = .ok ⟨3⟩ ∧
    (readFile ["cache"] (some ⟨none, some ("sub/new.bin"), none, none⟩)
        (writeFile ["cache"]
          (some ⟨none, some ("sub/new.bin"), some (b64Encode [0, 255, 7]), none⟩)
          fsScenario).fs).res = .ok ⟨b64Encode [0, 255, 7], 3⟩ ∧
    b64DecodeLenient (b64Encode [0, 255, 7]) = [0, 255, 7] :=
  claimC3_write_read_roundtrip ["cache"] fsScenario ("sub/new.bin") [0, 255, 7]
    (by decide) (by decide) (by decide) (by decide) (by decide)

/-- C10 as stated is false of the program: it reads the decode as
skipping every invalid character and continuing (`b64DecodeSkipAll`),
but Node's decoder stops at the first `=`.  At `data = "QQ==AA=="` the
program writes the single byte `0x41` (`written = 1`), not the 3 bytes
`[65, 0, 0]` that skip-all leniency predicts. -/
theorem claimC10_counterexample :
    (writeFile ["cache"] (some ⟨none, some ("y.bin"), some ("QQ==AA=="), none⟩)
        fsScenario).res = .ok ⟨1⟩ ∧
    ((writeFile ["cache"] (some ⟨none, some ("y.bin"), some ("QQ==AA=="), none⟩)
        fsScenario).fs.lookupFile ["cache", "y.bin"]) = some [65] ∧
    b64DecodeSkipAll ("QQ==AA==") = [65, 0, 0] ∧
    (writeFile ["cache"] (some ⟨none, some ("y.bin"), some ("QQ==AA=="), none⟩)
        fsScenario).res ≠ .ok ⟨(b64DecodeSkipAll ("QQ==AA==")).length⟩ := by
  refine ⟨by decide, by decide, by decide, by decide⟩

/-- C10, amended: `writeFile` never fails because of a malformed payload:
for any string value of `data`, valid base64 or not, the decode is
lenient — characters outside the base64 alphabet are skipped rather than
rejected, but decoding stops at the first `=` — so the operation
succeeds, stores the decoded bytes at the target, and returns their
count; the success of the operation is independent of the `data`
string. -/
theorem claimC10_writeFile_lenient_data (root : PathSegs) (fs : FS) (fp : String)
    (hok : pathOk root fp = true) (hne : joinSegs root fp ≠ [])
    (hmk : ∀ q ∈ (joinSegs root fp).dropLast.inits, fs.isFile q = false)
    (hndir : fs.isDir (joinSegs root fp) = false) :
    ∀ d : String,
      (writeFile root (some ⟨none, some fp, some d, none⟩) fs).res
          = .ok ⟨(b64DecodeLenient d).length⟩ ∧
      ((writeFile root (some ⟨none, some fp, some d, none⟩) fs).fs.lookupFile
          (joinSegs root fp)) = some (b64DecodeLenient d) := by
  intro d
  obtain ⟨fs1, hw, hfiles, hdirs⟩ :=
    writeFile_ok root fs ⟨none, some fp, some d, none⟩ fp d rfl rfl hok hne hmk hndir
  constructor
  · rw [hw]
  · rw [hw]
    exact lookupFile_updateFile fs1 _ _

theorem claimC10_witness :
    (writeFile ["cache"] (some ⟨none, some ("x.bin"), some ("@@@YQ==###"), none⟩)
        fsScenario).res = .ok ⟨1⟩ ∧
    ((writeFile ["cache"] (some ⟨none, some ("x.bin"), some ("@@@YQ==###"), none⟩)
        fsScenario).fs.lookupFile ["cache", "x.bin"]) = some [97] :=
  claimC10_writeFile_lenient_data ["cache"] fsScenario ("x.bin")
    (by decide) (by decide) (by decide) (by decide) ("@@@YQ==###")

/-- C4: `getCacheInfo` returns the root path, a `fileCount` equal to the
number of direct children of the root (plain files and directories
alike), a `totalSize` equal to the sum of the byte sizes of direct-child
plain files only (directories contribute nothing and their contents are
not recursed into), and a `files` list of the first 50 direct-child
names, silently truncated. -/
theorem claimC4_getCacheInfo (root : PathSegs) (fs : FS) (hwf : fs.wf) :
    ∃ info, (getCacheInfo root fs).res = .ok info ∧
      info.path = renderPath root ∧
      info.fileCount = (fs.files.filter fun e => isChildOf root e.fst).length
        + (fs.dirs.filter fun d => isChildOf root d).length ∧
      info.totalSize
        = ((fs.files.filter fun e => isChildOf root e.fst).map fun e => e.snd.length).sum ∧
      info.files = (fs.readdirNames root).take 50 ∧
      info.files.length ≤ 50 := by
  refine ⟨_, rfl, rfl, ?_, ?_, rfl, ?_⟩
  · exact readdirNames_length fs root
  · exact getCacheInfo_totalSize root fs hwf
  · simp [getCacheInfo]

theorem claimC4_witness :
    ∃ info, (getCacheInfo ["cache"] fsScenario).res = .ok info ∧
      info.path = renderPath ["cache"] ∧
      info.fileCount = (fsScenario.files.filter fun e => isChildOf ["cache"] e.fst).length
        + (fsScenario.dirs.filter fun d => isChildOf ["cache"] d).length ∧
      info.totalSize = ((fsScenario.files.filter fun e => isChildOf ["cache"] e.fst).map
        fun e => e.snd.length).sum ∧
      info.files = (fsScenario.readdirNames ["cache"]).take 50 ∧
      info.files.length ≤ 50 :=
  claimC4_getCacheInfo ["cache"] fsScenario (by decide)

/-- C5: for an in-root directory, `listFiles` returns exactly one
descriptor per direct child, carrying the child's name, the correct
`isDirectory` flag, and a size that is 0 for directories and the stored
byte length for plain files; a missing `subdir` parameter defaults to the
empty string, which resolves to the root itself; children are not
recursed into. -/
theorem claimC5_listFiles (root : PathSegs) (fs : FS) (hwf : fs.wf) (params : Option Params)
    (hok : pathOk root ((params.bind fun p => p.subdir).getD "") = true)
    (hdir : fs.isDir (joinSegs root ((params.bind fun p => p.subdir).getD "")) = true) :
    (listFiles root params fs).res = .ok
      (((fs.files.filter fun e =>
          isChildOf (joinSegs root ((params.bind fun p => p.subdir).getD "")) e.fst).map
            fun e => ⟨lastName e.fst, false, e.snd.length⟩)
        ++ ((fs.dirs.filter fun d =>
          isChildOf (joinSegs root ((params.bind fun p => p.subdir).getD "")) d).map
            fun d => ⟨lastName d, true, 0⟩)) ∧
    ((params.bind fun p => p.subdir).getD "" = "" → normalSegs root →
      joinSegs root ((params.bind fun p => p.subdir).getD "") = root) := by
  refine ⟨listFiles_ok root fs hwf params hok hdir, ?_⟩
  intro hsub hnorm
  rw [hsub]
  exact joinSegs_empty root hnorm

theorem claimC5_witness :
    (listFiles ["cache"] none fsScenario).res
        = .ok [⟨"a.txt", false, 4⟩, ⟨"b", true, 0⟩] ∧
    joinSegs ["cache"] "" = ["cache"] := by
  have h := claimC5_listFiles ["cache"] fsScenario (by decide) none (by decide) (by decide)
  exact ⟨h.1.trans (by decide), h.2 rfl (by decide)⟩

/-- C6: with the guard passed, `readFile` fails with a message containing
"not found" (case-insensitively) exactly when the resolved path does not
exist; when the resolved path is a plain file it returns the base64
encoding of its bytes together with the raw byte length. -/
theorem claimC6_readFile_notfound_iff (root : PathSegs) (fs : FS) (ps : Params) (fp : String)
    (hfp : ps.filePath = some fp) (hok : pathOk root fp = true) :
    ((∃ msg, (readFile root (some ps) fs).res = .error msg
        ∧ containsCI ("not found") msg = true)
      ↔ fs.existsAt (joinSegs root fp) = false) ∧
    (∀ bs, fs.lookupFile (joinSegs root fp) = some bs →
      fs.isDir (joinSegs root fp) = false →
      (readFile root (some ps) fs).res = .ok ⟨b64Encode bs, bs.length⟩) := by
  constructor
  · by_cases hex : fs.existsAt (joinSegs root fp) = true
    · constructor
      · rintro ⟨msg, hmsg, hci⟩
        by_cases hdir : fs.isDir (joinSegs root fp) = true
        · rw [readFile_eisdir root fs ps fp hfp hok hex hdir] at hmsg
          have hmeq : ("EISDIR: illegal operation on a directory, read") = msg := by
            simpa using hmsg
          rw [← hmeq, containsCI_eisdir_false] at hci
          cases hci
        · have hdir' : fs.isDir (joinSegs root fp) = false := by
            revert hdir
            cases fs.isDir (joinSegs root fp) <;> simp
          have hisf : fs.isFile (joinSegs root fp) = true := by
            simpa [FS.existsAt, hdir'] using hex
          obtain ⟨bs, hbs⟩ : ∃ bs, fs.lookupFile (joinSegs root fp) = some bs := by
            simpa [FS.isFile, Option.isSome_iff_exists] using hisf
          rw [readFile_ok root fs ps fp bs hfp hok hbs hdir'] at hmsg
          exact Except.noConfusion hmsg
      · intro hfalse
        rw [hfalse] at hex
        exact Bool.noConfusion hex
    · have hex' : fs.existsAt (joinSegs root fp) = false := by
        revert hex
        cases fs.existsAt (joinSegs root fp) <;> simp
      constructor
      · intro _
        exact hex'
      · intro _
        refine ⟨"File not found: " ++ fp, ?_, containsCI_notFound fp⟩
        rw [readFile_notfound root fs ps fp hfp hok hex']
  · intro bs hlook hndir
    exact readFile_ok root fs ps fp bs hfp hok hlook hndir

theorem claimC6_witness :
    (∃ msg, (readFile ["cache"] (some ⟨none, some ("missing.bin"), none, none⟩)
        fsScenario).res = .error msg ∧ containsCI ("not found") msg = true) ∧
    (readFile ["cache"] (some ⟨none, some ("a.txt"), none, none⟩) fsScenario).res
        = .ok ⟨"dGVzdA==", 4⟩ := by
  have h1 := claimC6_readFile_notfound_iff ["cache"] fsScenario
      ⟨none, some ("missing.bin"), none, none⟩ ("missing.bin") rfl (by decide)
  have h2 := claimC6_readFile_notfound_iff ["cache"] fsScenario
      ⟨none, some ("a.txt"), none, none⟩ ("a.txt") rfl (by decide)
  refine ⟨h1.1.mpr (by decide), ?_⟩
  exact (h2.2 [116, 101, 115, 116] (by decide) (by decide)).trans (by decide)

theorem runAction_unknown (root : PathSegs) (action : String) (params : Option Params)
    (fs : FS)
    (h : action ∉ (["listFiles", "readFile", "writeFile", "getCacheInfo"] : List String)) :
    runAction root action params fs = (.error ("Unknown action: " ++ action), fs, []) := by
  unfold runAction
  split <;> simp_all

/-- C7: dispatching a decoded request envelope, with the socket open,
sends exactly one response envelope: it echoes the request identifier and
carries exactly one of `data` (present iff success) or `error` (present
iff failure); an unknown action string yields a failed response with no
`data` field. -/
theorem claimC7_response_envelope (cfg : Config) (s : AgentState) (req : Request)
    (hopen : s.wsOpen = true) :
    ∃ resp, (step cfg s (.evMessage (.ok (.request req)))).snd = [.response resp] ∧
      resp.requestId = req.requestId ∧
      (resp.data.isSome = true ↔ resp.success = true) ∧
      (resp.error.isSome = true ↔ resp.success = false) ∧
      (req.action ∉ (["listFiles", "readFile", "writeFile", "getCacheInfo"] : List String) →
        resp.success = false ∧ resp.data = none ∧
          resp.error = some ("Unknown action: " ++ req.action)) := by
  have hsnd : (step cfg s (.evMessage (.ok (.request req)))).snd
      = [.response (handleRequest cfg.root req s.fs).fst] := by
    unfold step
    simp [hopen]
  refine ⟨(handleRequest cfg.root req s.fs).fst, hsnd, ?_, ?_, ?_, ?_⟩
  · unfold handleRequest
    rcases hr : runAction cfg.root req.action req.params s.fs with ⟨res, fs1, log⟩
    cases res <;> simp
  · unfold handleRequest
    rcases hr : runAction cfg.root req.action req.params s.fs with ⟨res, fs1, log⟩
    cases res <;> simp
  · unfold handleRequest
    rcases hr : runAction cfg.root req.action req.params s.fs with ⟨res, fs1, log⟩
    cases res <;> simp
  · intro hact
    unfold handleRequest
    rw [runAction_unknown cfg.root req.action req.params s.fs hact]
    simp

theorem claimC7_witness :
    ∃ resp, (step cfg0 ⟨fsScenario, true, none, false, 0⟩
        (.evMessage (.ok (.request ⟨"r1", "emptyCache", none⟩)))).snd = [.response resp] ∧
      resp.requestId = "r1" ∧
      resp.success = false ∧ resp.data = none ∧
      resp.error = some ("Unknown action: emptyCache") := by
  obtain ⟨resp, h1, h2, h3, h4, h5⟩ :=
    claimC7_response_envelope cfg0 ⟨fsScenario, true, none, false, 0⟩
      ⟨"r1", "emptyCache", none⟩ rfl
  obtain ⟨h6, h7, h8⟩ := h5 (by decide)
  exact ⟨resp, h1, h2, h6, h7, h8⟩

/-- C8: an undecodable inbound payload is logged and dropped: no outbound
message of any kind is produced, the agent state (filesystem included) is
unchanged, and subsequent events are processed exactly as if the
malformed frame had never arrived. -/
theorem claimC8_malformed_dropped (cfg : Config) (s : AgentState) (err : String) :
    step cfg s (.evMessage (.error err)) = (s, []) ∧
    ∀ es, runEvents cfg s (.evMessage (.error err) :: es) = runEvents cfg s es := by
  exact ⟨rfl, fun es => rfl⟩

theorem step_timersInv (cfg : Config) (s : AgentState) (e : Event) (h : timersInv s) :
    timersInv (step cfg s e).fst := by
  obtain ⟨h1, h2⟩ := h
  cases e with
  | evOpen => exact ⟨h1, h2⟩
  | evMessage m =>
      cases m with
      | error _ => exact ⟨h1, h2⟩
      | ok im =>
          cases im with
          | registered tok => exact ⟨h1, h2⟩
          | request req => exact ⟨h1, h2⟩
          | serverError m => exact ⟨h1, h2⟩
          | other t => exact ⟨h1, h2⟩
  | evClose =>
      show timersInv (scheduleReconnect { s with wsOpen := false, sessionToken := none })
      unfold scheduleReconnect
      by_cases hp : s.reconnectPending = true
      · rw [if_pos hp]
        exact ⟨h1, h2⟩
      · rw [if_neg hp]
        have hne : s.armedTimers ≠ 1 := fun heq => hp (h2.mpr heq)
        refine ⟨?_, ?_, ?_⟩
        · show s.armedTimers + 1 ≤ 1
          omega
        · intro _
          show s.armedTimers + 1 = 1
          omega
        · intro _
          rfl
  | evError m => exact ⟨h1, h2⟩
  | evTimerFire =>
      unfold step
      by_cases hp : s.reconnectPending = true
      · have ht : s.armedTimers = 1 := h2.mp hp
        rw [if_pos hp]
        refine ⟨?_, ?_, ?_⟩
        · show s.armedTimers - 1 ≤ 1
          omega
        · intro hfalse
          exact Bool.noConfusion hfalse
        · intro habs
          have : s.armedTimers - 1 = 1 := habs
          omega
      · rw [if_neg hp]
        exact ⟨h1, h2⟩

theorem runEvents_timersInv (cfg : Config) : ∀ (es : List Event) (s : AgentState),
    timersInv s → timersInv (runEvents cfg s es)
  | [], _, h => h
  | e :: rest, s, h => runEvents_timersInv cfg rest _ (step_timersInv cfg s e h)

theorem step_close (cfg : Config) (s : AgentState) :
    (step cfg s .evClose).fst.sessionToken = none ∧
    (s.reconnectPending = false →
      (step cfg s .evClose).fst.armedTimers = s.armedTimers + 1 ∧
      (step cfg s .evClose).fst.reconnectPending = true) ∧
    (s.reconnectPending = true →
      (step cfg s .evClose).fst.armedTimers = s.armedTimers) := by
  unfold step scheduleReconnect
  by_cases hp : s.reconnectPending = true
  · rw [if_pos hp]
    refine ⟨rfl, ?_, ?_⟩
    · intro hfalse
      rw [hfalse] at hp
      exact Bool.noConfusion hp
    · intro _
      rfl
  · rw [if_neg hp]
    refine ⟨rfl, ?_, ?_⟩
    · intro _
      exact ⟨rfl, rfl⟩
    · intro htrue
      exact absurd htrue hp

/-- C9: in every reachable agent state at most one reconnect timer is
armed; a transport close clears the stored session token and arms a
fresh reconnect timer only when none is already pending, so two
reconnect attempts are never scheduled concurrently. -/
theorem claimC9_reconnect_guard (cfg : Config) (fs0 : FS) (es : List Event) :
    (runEvents cfg (initState fs0) es).armedTimers ≤ 1 ∧
    (step cfg (runEvents cfg (initState fs0) es) .evClose).fst.sessionToken = none ∧
    ((runEvents cfg (initState fs0) es).reconnectPending = false →
      (step cfg (runEvents cfg (initState fs0) es) .evClose).fst.armedTimers
        = (runEvents cfg (initState fs0) es).armedTimers + 1) ∧
    ((runEvents cfg (initState fs0) es).reconnectPending = true →
      (step cfg (runEvents cfg (initState fs0) es) .evClose).fst.armedTimers
        = (runEvents cfg (initState fs0) es).armedTimers) ∧
    (step cfg (runEvents cfg (initState fs0) es) .evClose).fst.armedTimers ≤ 1 := by
  have hinit : timersInv (initState fs0) := by
    refine ⟨?_, ?_⟩ <;> simp [initState]
  have hinv : timersInv (runEvents cfg (initState fs0) es) :=
    runEvents_timersInv cfg es (initState fs0) hinit
  have hinv2 : timersInv (step cfg (runEvents cfg (initState fs0) es) .evClose).fst :=
    step_timersInv cfg _ _ hinv
  have hc := step_close cfg (runEvents cfg (initState fs0) es)
  exact ⟨hinv.1, hc.1, fun h => (hc.2.1 h).1, hc.2.2, hinv2.1⟩

theorem claimC9_witness :
    (runEvents cfg0 (initState fsScenario) [.evOpen, .evClose]).armedTimers ≤ 1 ∧
    (step cfg0 (runEvents cfg0 (initState fsScenario) [.evOpen, .evClose])
      .evClose).fst.sessionToken = none ∧
    (step cfg0 (runEvents cfg0 (initState fsScenario) [.evOpen, .evClose])
        .evClose).fst.armedTimers
      = (runEvents cfg0 (initState fsScenario) [.evOpen, .evClose]).armedTimers := by
  have h := claimC9_reconnect_guard cfg0 fsScenario [.evOpen, .evClose]
  exact ⟨h.1, h.2.1, h.2.2.2.1 (by decide)⟩

end LesikAgent
